import Mathlib

/-!
Verification development for the vibration-analysis pipeline
(`VIBRATION.py`): a shallow embedding of the sample buffer, the
Butterworth band filter cascade, the wavelet decomposition call, the
statistics stage and the orchestrator loop, together with theorems about
the properties stated in the design document.

Numbers are modelled with `ℚ` (the source works with IEEE floats; every
property checked here is about control flow, lengths, ordering and signs,
none of which depend on rounding).  Numerical kernels of the external
libraries (Butterworth coefficient design, wavelet analysis filters) are
abstracted as function parameters; the control flow around them — the
exact calls, validations and sequencing that `VIBRATION.py` performs — is
embedded concretely.
-/

namespace Vibration

/-! ## SampleBuffer: `fetch_data_ws` (VIBRATION.py lines 22–37)

The Python loop body is
```
real_time_data_stream.append(data)
if len(real_time_data_stream) >= 100:  # Limit the buffer to 100 samples
    real_time_data_stream.pop(0)
yield real_time_data_stream
```
`pushSample cap buf s` is that body with the literal `100` generalised to
`cap` so that the capacity-3 instance of the design document can be
stated; `pushSample100` is the instance used by the code.  A sample is modelled by
its timestamp (a `ℚ`); the JSON payload plays no role in the buffer
logic. -/

/-- One iteration of the `fetch_data_ws` receive loop: append the decoded
sample, then `if len(stream) >= cap: stream.pop(0)`. -/
def pushSample (cap : ℕ) (buf : List ℚ) (s : ℚ) : List ℚ :=
  let buf2 := buf ++ [s]
  if cap ≤ buf2.length then buf2.drop 1 else buf2

/-- The buffer update exactly as `fetch_data_ws` performs it, with the
hard-coded source limit of 100. -/
def pushSample100 (buf : List ℚ) (s : ℚ) : List ℚ :=
  pushSample 100 buf s

/-- The contents of the buffer after the generator has consumed the given
message stream, starting from the empty list `real_time_data_stream = []`. -/
def bufferAfter (cap : ℕ) (msgs : List ℚ) : List ℚ :=
  msgs.foldl (pushSample cap) []

/-- `fetch_data_ws` yields `real_time_data_stream` itself — the live list
object, no copy is taken at line 33.  Reading a previously yielded value
therefore reads the *current* contents of the list: the observation made
through any yielded reference once the generator has consumed `msgs`
messages is the buffer state after `msgs`. -/
def observeYieldedSnapshot (cap : ℕ) (msgs : List ℚ) : List ℚ :=
  bufferAfter cap msgs

theorem pushSample_length_lt (cap : ℕ) (buf : List ℚ) (s : ℚ)
    (h : buf.length < cap) : (pushSample cap buf s).length < cap := by
  simp only [pushSample]
  split <;> rename_i hc <;>
    simp only [List.length_drop, List.length_append, List.length_singleton] at * <;>
    omega

theorem bufferAfter_length_lt (cap : ℕ) (hcap : 0 < cap) (msgs : List ℚ) :
    (bufferAfter cap msgs).length < cap := by
  unfold bufferAfter
  have key : ∀ (l : List ℚ) (acc : List ℚ), acc.length < cap →
      (l.foldl (pushSample cap) acc).length < cap := by
    intro l
    induction l with
    | nil => intro acc h; simpa using h
    | cons x xs ih =>
      intro acc h
      exact ih _ (pushSample_length_lt cap acc x h)
  exact key msgs [] (by simpa using hcap)

/-! ## BandFilter: `combined_filter` (VIBRATION.py lines 67–72)

```
def combined_filter(data, lowcut, highcut, fs, order=5):
    b_low, a_low = butter(order, lowcut / (0.5 * fs), btype='low')
    low_passed = filtfilt(b_low, a_low, data)
    b_high, a_high = butter(order, highcut / (0.5 * fs), btype='high')
    return filtfilt(b_high, a_high, low_passed)
```
The scipy kernels are embedded as follows: the numerical Butterworth
coefficient design is abstracted as a parameter `design` (its output
arrays have length `order + 1`, which theorems that need it take as a
hypothesis), while the validations scipy performs and the zero-phase
forward-backward structure of `filtfilt` are embedded concretely. -/

/-- Filter coefficients: numerator `b` and denominator `a`, as returned by
`scipy.signal.butter`. -/
structure Coeffs where
  b : List ℚ
  a : List ℚ

/-- The `btype` argument of `scipy.signal.butter`. -/
inductive BType where
  | low
  | high

/-- Model of `scipy.signal.butter`: validates that the normalized digital
critical frequency satisfies `0 < Wn < 1` (scipy raises `ValueError`
otherwise) and returns the designed coefficients; the numerical design
procedure is the abstract parameter `design`. -/
def butter (design : ℕ → ℚ → BType → Coeffs) (order : ℕ) (wn : ℚ)
    (btype : BType) : Except String Coeffs :=
  if 0 < wn ∧ wn < 1 then Except.ok (design order wn btype)
  else Except.error "Digital filter critical frequencies must be 0 < Wn < 1"

/-- Dot product of a coefficient list against (a reversed window of) the
signal; `zipWith` truncates to the shorter list, matching the implicit
zero history at the start of `lfilter`. -/
def dotQ (cs xs : List ℚ) : ℚ :=
  (List.zipWith (fun c x => c * x) cs xs).sum

/-- Model of `scipy.signal.lfilter`: the direct-form difference equation
`a[0]*y[n] = b[0]*x[n] + ... + b[nb]*x[n-nb] - a[1]*y[n-1] - ... -
a[na]*y[n-na]` with zero initial history.  The accumulator carries the
reversed inputs seen so far and the reversed outputs produced so far. -/
def lfilter (c : Coeffs) (x : List ℚ) : List ℚ :=
  let a0 := c.a.headD 1
  let step := fun (acc : List ℚ × List ℚ) (xi : ℚ) =>
    let xrev := xi :: acc.1
    (xrev, ((dotQ c.b xrev - dotQ c.a.tail acc.2) / a0) :: acc.2)
  ((x.foldl step ([], [])).2).reverse

/-- Model of `scipy.signal.filtfilt`: validates that the input is longer
than `padlen = 3 * max(len(a), len(b))` (scipy raises `ValueError`, "The
length of the input vector x must be greater than padlen", otherwise) and
then applies the filter forward and then backward in time (zero-phase
filtering).  The edge padding and transient-matching initial conditions
scipy adds are numerical refinements of the same forward-backward
structure and are not modelled. -/
def filtfilt (c : Coeffs) (x : List ℚ) : Except String (List ℚ) :=
  if x.length ≤ 3 * max c.a.length c.b.length then
    Except.error "The length of the input vector x must be greater than padlen"
  else
    Except.ok ((lfilter c ((lfilter c x).reverse)).reverse)

/-- `combined_filter` (lines 67–72), translated statement by statement:
design the low-pass at `lowcut / (0.5*fs)`, filtfilt it over `data`,
design the high-pass at `highcut / (0.5*fs)`, filtfilt it over the
low-passed signal; a `ValueError` from any of the four scipy calls
propagates (there is no handler inside the function). -/
def combined_filter (design : ℕ → ℚ → BType → Coeffs) (data : List ℚ)
    (lowcut highcut fs : ℚ) (order : ℕ := 5) : Except String (List ℚ) :=
  match butter design order (lowcut / (1/2 * fs)) BType.low with
  | Except.error e => Except.error e
  | Except.ok cl =>
    match filtfilt cl data with
    | Except.error e => Except.error e
    | Except.ok low_passed =>
      match butter design order (highcut / (1/2 * fs)) BType.high with
      | Except.error e => Except.error e
      | Except.ok ch => filtfilt ch low_passed

/-- The low-pass stage of the cascade as the design document describes it:
construct a low-pass filter at the low cutoff and apply it zero-phase to
the given signal. -/
def lowpass_stage (design : ℕ → ℚ → BType → Coeffs) (lowcut fs : ℚ)
    (order : ℕ) (data : List ℚ) : Except String (List ℚ) :=
  (butter design order (lowcut / (1/2 * fs)) BType.low).bind
    (fun cl => filtfilt cl data)

/-- The high-pass stage of the cascade as the design document describes
it: construct a high-pass filter at the high cutoff and apply it
zero-phase to the given signal. -/
def highpass_stage (design : ℕ → ℚ → BType → Coeffs) (highcut fs : ℚ)
    (order : ℕ) (data : List ℚ) : Except String (List ℚ) :=
  (butter design order (highcut / (1/2 * fs)) BType.high).bind
    (fun ch => filtfilt ch data)

/-- `true` exactly on the error constructor; models the call raising an
exception with no partial result. -/
def isError {ε α : Type} : Except ε α → Bool
  | Except.error _ => true
  | Except.ok _ => false

theorem lfilter_length (c : Coeffs) (x : List ℚ) :
    (lfilter c x).length = x.length := by
  unfold lfilter
  have key : ∀ (l : List ℚ) (acc : List ℚ × List ℚ),
      ((l.foldl (fun (acc : List ℚ × List ℚ) (xi : ℚ) =>
        (xi :: acc.1,
         ((dotQ c.b (xi :: acc.1) - dotQ c.a.tail acc.2) / c.a.headD 1)
           :: acc.2)) acc).2).length = acc.2.length + l.length := by
    intro l
    induction l with
    | nil => intro acc; simp
    | cons y ys ih =>
      intro acc
      simp only [List.foldl_cons, ih, List.length_cons]
      omega
  simp only [List.length_reverse]
  simpa using key x ([], [])

theorem filtfilt_ok_iff (c : Coeffs) (x y : List ℚ) :
    filtfilt c x = Except.ok y ↔
      (3 * max c.a.length c.b.length < x.length ∧
        y = (lfilter c ((lfilter c x).reverse)).reverse) := by
  unfold filtfilt
  split <;> rename_i hlen
  · constructor
    · intro h; cases h
    · intro ⟨h1, _⟩; omega
  · constructor
    · intro h
      refine ⟨by omega, ?_⟩
      cases h
      rfl
    · intro ⟨_, h2⟩
      rw [h2]

theorem filtfilt_ok_length (c : Coeffs) (x y : List ℚ)
    (h : filtfilt c x = Except.ok y) : y.length = x.length := by
  rw [filtfilt_ok_iff] at h
  rw [h.2]
  simp [lfilter_length]

theorem butter_ok_iff (design : ℕ → ℚ → BType → Coeffs) (order : ℕ)
    (wn : ℚ) (btype : BType) (c : Coeffs) :
    butter design order wn btype = Except.ok c ↔
      ((0 < wn ∧ wn < 1) ∧ c = design order wn btype) := by
  unfold butter
  split <;> rename_i hw
  · constructor
    · intro h; exact ⟨hw, (Except.ok.inj h).symm⟩
    · intro ⟨_, hc⟩; rw [hc]
  · constructor
    · intro h; exact Except.noConfusion h
    · intro ⟨hw2, _⟩; exact absurd hw2 hw

/-- Success characterisation of `combined_filter`: a successful run means
both cutoff validations passed and both zero-phase applications succeeded,
the high-pass one running on the output of the low-pass one. -/
theorem combined_filter_ok_conditions (design : ℕ → ℚ → BType → Coeffs)
    (data : List ℚ) (lowcut highcut fs : ℚ) (order : ℕ) (y : List ℚ)
    (h : combined_filter design data lowcut highcut fs order = Except.ok y) :
    (0 < lowcut / (1/2 * fs) ∧ lowcut / (1/2 * fs) < 1) ∧
    (0 < highcut / (1/2 * fs) ∧ highcut / (1/2 * fs) < 1) ∧
    ∃ lp, filtfilt (design order (lowcut / (1/2 * fs)) BType.low) data =
        Except.ok lp ∧
      filtfilt (design order (highcut / (1/2 * fs)) BType.high) lp =
        Except.ok y := by
  unfold combined_filter at h
  split at h
  · exact Except.noConfusion h
  · rename_i cl heq1
    split at h
    · exact Except.noConfusion h
    · rename_i lp heq2
      split at h
      · exact Except.noConfusion h
      · rename_i ch heq3
        obtain ⟨hc1, hcl⟩ := (butter_ok_iff _ _ _ _ _).mp heq1
        obtain ⟨hc2, hch⟩ := (butter_ok_iff _ _ _ _ _).mp heq3
        subst hcl hch
        exact ⟨hc1, hc2, lp, heq2, h⟩

/-- A degenerate coefficient design (b = a = [1], the identity filter)
used only to evaluate the filter pipeline at concrete inputs. -/
def idDesign : ℕ → ℚ → BType → Coeffs :=
  fun _ _ _ => ⟨[1], [1]⟩

/-- A coefficient design returning arrays of length `order + 1` on both
sides, the shape `scipy.signal.butter` produces; used only to evaluate
the validation path at concrete inputs. -/
def onesDesign : ℕ → ℚ → BType → Coeffs :=
  fun o _ _ => ⟨List.replicate (o + 1) 1, List.replicate (o + 1) 1⟩

/-! ## PipelineOrchestrator call sites: `process_data` (lines 40–64) and
the RUNNING loop (lines 125–150) -/

/-- The filtering stage of `process_data` (lines 51–53): one
`combined_filter(axis, lowcut, highcut, fs)` call per axis.  `fs`
defaults to 1000 per the signature `def process_data(data, lowcut,
highcut, wavelet_type, decomposition_level, fs=1000)`, and no `order`
argument is passed, so `combined_filter` uses its own default of 5. -/
def process_data_filters (design : ℕ → ℚ → BType → Coeffs)
    (x y z : List ℚ) (lowcut highcut : ℚ) (fs : ℚ := 1000) :
    Except String (List ℚ) × Except String (List ℚ) ×
      Except String (List ℚ) :=
  (combined_filter design x lowcut highcut fs,
   combined_filter design y lowcut highcut fs,
   combined_filter design z lowcut highcut fs)

/-- The per-cycle invocation at line 129:
`process_data(real_time_data, lowcut, highcut, wavelet_type,
decomposition_level)` passes no `fs`, so the default 1000 applies; the
only user-configurable inputs reaching the filter are the two cutoffs. -/
def analysis_cycle_filters (design : ℕ → ℚ → BType → Coeffs)
    (x y z : List ℚ) (lowcut highcut : ℚ) :
    Except String (List ℚ) × Except String (List ℚ) ×
      Except String (List ℚ) :=
  process_data_filters design x y z lowcut highcut

/-- C4: `combined_filter` is exactly the low-pass-then-high-pass cascade,
in that order: it equals the low-pass stage (low-pass filter designed at
the low cutoff, applied zero-phase to the raw signal) followed, on its
output, by the high-pass stage (high-pass filter designed at the high
cutoff, applied with the same zero-phase technique). -/
theorem C4_lowpass_then_highpass_cascade (design : ℕ → ℚ → BType → Coeffs)
    (data : List ℚ) (lowcut highcut fs : ℚ) (order : ℕ) :
    combined_filter design data lowcut highcut fs order =
      (lowpass_stage design lowcut fs order data).bind
        (highpass_stage design highcut fs order) := by
  unfold combined_filter lowpass_stage highpass_stage
  cases hbl : butter design order (lowcut / (1/2 * fs)) BType.low with
  | error e => simp [Except.bind]
  | ok cl =>
    cases hff : filtfilt cl data with
    | error e => simp [Except.bind, hff]
    | ok lp =>
      cases hbh : butter design order (highcut / (1/2 * fs)) BType.high with
      | error e => simp [Except.bind, hff, hbh]
      | ok ch => simp [Except.bind, hff, hbh]

/-- C5: on every non-empty signal on which it succeeds, `combined_filter`
returns a signal of the same length as its input, and it is
deterministic: two successful evaluations at the same signal and spec
yield identical outputs. -/
theorem C5_length_preserving_deterministic (design : ℕ → ℚ → BType → Coeffs)
    (data : List ℚ) (lowcut highcut fs : ℚ) (order : ℕ) (y y2 : List ℚ)
    (hne : data ≠ [])
    (h : combined_filter design data lowcut highcut fs order = Except.ok y)
    (h2 : combined_filter design data lowcut highcut fs order = Except.ok y2) :
    y.length = data.length ∧ y2 = y := by
  obtain ⟨-, -, lp, hlp, hy⟩ := combined_filter_ok_conditions _ _ _ _ _ _ _ h
  refine ⟨?_, ?_⟩
  · rw [filtfilt_ok_length _ _ _ hy, filtfilt_ok_length _ _ _ hlp]
  · rw [h] at h2
    exact (Except.ok.inj h2).symm

theorem C5_witness :
    ([(1:ℚ), 2, 3, 4] : List ℚ).length = ([(1:ℚ), 2, 3, 4] : List ℚ).length ∧
      ([(1:ℚ), 2, 3, 4] : List ℚ) = [(1:ℚ), 2, 3, 4] :=
  C5_length_preserving_deterministic idDesign [1, 2, 3, 4] 1 2 10 5
    [1, 2, 3, 4] [1, 2, 3, 4] (by simp)
    (by norm_num [combined_filter, butter, filtfilt, lfilter, dotQ, idDesign])
    (by norm_num [combined_filter, butter, filtfilt, lfilter, dotQ, idDesign])

/-- C6: `combined_filter` fails with a `ValueError` — producing no
partial output — whenever either cutoff is at or above the Nyquist
frequency `0.5 * fs`, or at or below 0, or the signal has too few
samples for zero-phase filtering at the given order (scipy requires
length strictly greater than `3 * (order + 1)`). -/
theorem C6_invalid_spec_error (design : ℕ → ℚ → BType → Coeffs)
    (hdes : ∀ o wn t, ((design o wn t).a.length = o + 1) ∧
      ((design o wn t).b.length = o + 1))
    (data : List ℚ) (lowcut highcut fs : ℚ) (order : ℕ) (hfs : 0 < fs)
    (hbad : lowcut ≤ 0 ∨ 1/2 * fs ≤ lowcut ∨ highcut ≤ 0 ∨
      1/2 * fs ≤ highcut ∨ data.length ≤ 3 * (order + 1)) :
    isError (combined_filter design data lowcut highcut fs order) = true := by
  cases hres : combined_filter design data lowcut highcut fs order with
  | error e => rfl
  | ok y =>
    exfalso
    obtain ⟨⟨hl1, hl2⟩, ⟨hh1, hh2⟩, lp, hlp, hy⟩ :=
      combined_filter_ok_conditions _ _ _ _ _ _ _ hres
    have hfs2 : (0:ℚ) < 1/2 * fs := by linarith
    have hlplen := ((filtfilt_ok_iff _ _ _).mp hlp).1
    rcases hbad with hb | hb | hb | hb | hb
    · rcases div_pos_iff.mp hl1 with ⟨ha, _⟩ | ⟨_, hbneg⟩
      · linarith
      · linarith
    · have : lowcut < 1/2 * fs := (div_lt_one hfs2).mp hl2
      linarith
    · rcases div_pos_iff.mp hh1 with ⟨ha, _⟩ | ⟨_, hbneg⟩
      · linarith
      · linarith
    · have : highcut < 1/2 * fs := (div_lt_one hfs2).mp hh2
      linarith
    · have hd := hdes order (lowcut / (1/2 * fs)) BType.low
      rw [hd.1, hd.2, max_self] at hlplen
      omega

theorem C6_witness :
    isError (combined_filter onesDesign [1] 0 2 10 5) = true :=
  C6_invalid_spec_error onesDesign
    (fun o wn t => by constructor <;> simp [onesDesign])
    [1] 0 2 10 5 (by norm_num) (Or.inl (le_refl 0))

/-- C10: the analysis cycle applies the band filter with filter order
exactly 5 and sample rate exactly 1000 Hz on every axis; neither value is
reachable from the user-supplied configuration, which only carries the
two cutoffs to the filter. -/
theorem C10_constant_order_and_fs (design : ℕ → ℚ → BType → Coeffs)
    (x y z : List ℚ) (lowcut highcut : ℚ) :
    analysis_cycle_filters design x y z lowcut highcut =
      (combined_filter design x lowcut highcut 1000 5,
       combined_filter design y lowcut highcut 1000 5,
       combined_filter design z lowcut highcut 1000 5) := rfl

/-- C1 counterexample: with the eviction rule of `fetch_data_ws`
instantiated at capacity 3, pushing the timestamps [1, 2, 3, 4] does NOT
leave [2, 3, 4]: the pop at `len >= cap` already fires when the length
merely reaches the capacity, so the buffer ends as [3, 4]. -/
theorem C1_counterexample :
    bufferAfter 3 [1, 2, 3, 4] ≠ [2, 3, 4] := by decide

/-- C1 (amended): `push` appends the sample and evicts the single oldest
entry as soon as the resulting length reaches or exceeds the capacity
(`len >= cap`), not only when it exceeds it; every buffer reachable from
the empty buffer therefore keeps length < cap (in particular ≤ cap), and
the capacity-3 run over timestamps [1, 2, 3, 4] ends with [3, 4]. -/
theorem C1_eviction_at_capacity (cap : ℕ) (buf : List ℚ) (s : ℚ)
    (hlen : buf.length < cap) :
    pushSample cap buf s =
        (if cap ≤ buf.length + 1 then (buf ++ [s]).drop 1 else buf ++ [s]) ∧
      (pushSample cap buf s).length < cap ∧
      bufferAfter 3 [1, 2, 3, 4] = [3, 4] := by
  refine ⟨?_, pushSample_length_lt cap buf s hlen, by decide⟩
  unfold pushSample
  simp [List.length_append]

theorem C1_witness :
    pushSample 3 [1, 2] 7 =
        (if 3 ≤ ([(1:ℚ), 2]).length + 1 then ([(1:ℚ), 2] ++ [7]).drop 1
          else [(1:ℚ), 2] ++ [7]) ∧
      (pushSample 3 [1, 2] 7).length < 3 ∧
      bufferAfter 3 [1, 2, 3, 4] = [3, 4] :=
  C1_eviction_at_capacity 3 [1, 2] 7 (by decide)

/-- C2 counterexample: the value yielded after the first receive reads
[1] at yield time, but after the generator consumes one more message the
same yielded object reads [1, 2] — the push performed after the snapshot
was returned changed what the snapshot holds, refuting immutability. -/
theorem C2_counterexample :
    observeYieldedSnapshot 100 [1] = [1] ∧
      observeYieldedSnapshot 100 [1, 2] ≠ observeYieldedSnapshot 100 [1] := by
  constructor
  · decide
  · decide

/-- C2 (amended): the yielded snapshot is a live view into
`real_time_data_stream`, never a copy: reading an already-yielded
snapshot after `extra` further messages were consumed shows the
yield-time contents with all the later pushes applied, and a single later
push concretely changes what the earlier snapshot reads. -/
theorem C2_snapshot_is_live_view (cap : ℕ) (msgs extra : List ℚ) :
    observeYieldedSnapshot cap (msgs ++ extra) =
        extra.foldl (pushSample cap) (observeYieldedSnapshot cap msgs) ∧
      observeYieldedSnapshot 100 [1, 2] ≠ observeYieldedSnapshot 100 [1] := by
  constructor
  · unfold observeYieldedSnapshot bufferAfter
    rw [List.foldl_append]
  · decide

/-! ## WaveletDecomposer: the `pywt.wavedec` call (line 77)

`plot_dwt_analysis` runs `coeffs = pywt.wavedec(signal, wavelet_type,
level=decomposition_level)`.  The per-level control flow of
`pywt.wavedec` is embedded below; the single-level analysis step (the
wavelet analysis filters plus downsampling) is abstracted as the
parameter `dwtStep`.  Modern pywt (since 0.5.0) raises `ValueError` only
for a negative level; a level above `dwt_max_level` produces a
`UserWarning` ("all coefficients will experience boundary effects") and
the transform is computed anyway. -/

/-- The analysis recursion of `pywt.wavedec`: `level` times replace the
current approximation by `dwtStep` of it, collecting the detail bands in
iteration order, and return them with the final approximation. -/
def wavedecLoop (dwtStep : List ℚ → List ℚ × List ℚ) :
    List ℚ → ℕ → List (List ℚ) × List ℚ
  | a, 0 => ([], a)
  | a, n + 1 =>
    let ad := dwtStep a
    let rest := wavedecLoop dwtStep ad.1 n
    (ad.2 :: rest.1, rest.2)

/-- The coefficient list `pywt.wavedec` returns: pywt collects
`[cD_1, ..., cD_L, cA_L]` and reverses it, yielding the final
approximation followed by the detail bands, coarsest first. -/
def wavedec (dwtStep : List ℚ → List ℚ × List ℚ) (data : List ℚ)
    (level : ℕ) : List (List ℚ) :=
  let r := wavedecLoop dwtStep data level
  r.2 :: r.1.reverse

/-- Model of `pywt.dwt_max_level(data_len, filter_len)`: the maximal
useful depth `floor(log2(data_len // (filter_len - 1)))`, which is 0 when
the data is shorter than `filter_len - 1`. -/
def dwt_max_level (dataLen filterLen : ℕ) : ℕ :=
  Nat.log2 (dataLen / (filterLen - 1))

/-- Outcome of the `pywt.wavedec` call with the level check made
explicit: `warnTooHigh` records whether the boundary-effects
`UserWarning` fires (level above `dwt_max_level`); `coeffs` is the
coefficient list, computed in either case — there is no error path for a
too-high level. -/
structure WavedecResult where
  warnTooHigh : Bool
  coeffs : List (List ℚ)

/-- `pywt.wavedec(data, wavelet, level)` for a wavelet whose
decomposition filter has length `filterLen`. -/
def wavedecChecked (dwtStep : List ℚ → List ℚ × List ℚ) (filterLen : ℕ)
    (data : List ℚ) (level : ℕ) : WavedecResult :=
  { warnTooHigh := decide (dwt_max_level data.length filterLen < level),
    coeffs := wavedec dwtStep data level }

/-- A concrete single-level analysis step for evaluating the wavedec
control flow at concrete inputs: unnormalised Haar averages and
differences over consecutive pairs, the last sample repeated when the
length is odd. -/
def haarPairs (f : ℚ → ℚ → ℚ) : List ℚ → List ℚ
  | [] => []
  | [u] => [f u u]
  | u :: v :: rest => f u v :: haarPairs f rest

/-- The Haar step: pairwise half-sums as approximation, pairwise
half-differences as detail. -/
def haarStep (x : List ℚ) : List ℚ × List ℚ :=
  (haarPairs (fun u v => (u + v) / 2) x, haarPairs (fun u v => (u - v) / 2) x)

theorem wavedecLoop_fst_length (dwtStep : List ℚ → List ℚ × List ℚ) :
    ∀ (n : ℕ) (a : List ℚ), ((wavedecLoop dwtStep a n).1).length = n := by
  intro n
  induction n with
  | zero => intro a; rfl
  | succ m ih => intro a; simp [wavedecLoop, ih]

theorem wavedec_length (dwtStep : List ℚ → List ℚ × List ℚ)
    (data : List ℚ) (level : ℕ) :
    (wavedec dwtStep data level).length = level + 1 := by
  unfold wavedec
  simp [wavedecLoop_fst_length]

/-- C7: for every analysis step and every requested depth `L ≥ 1`, the
`pywt.wavedec` call returns exactly `L` detail bands plus one final
approximation band — `L + 1` coefficient arrays in total. -/
theorem C7_wavedec_band_count (dwtStep : List ℚ → List ℚ × List ℚ)
    (data : List ℚ) (L : ℕ) (hL : 1 ≤ L) :
    (wavedec dwtStep data L).length = L + 1 :=
  wavedec_length dwtStep data L

theorem C7_witness :
    (wavedec haarStep [1, 2, 3, 4] 3).length = 3 + 1 :=
  C7_wavedec_band_count haarStep [1, 2, 3, 4] 3 (by decide)

/-- C8 counterexample: a signal of length 3 admits at most
`dwt_max_level 3 2 = 1` Haar levels, yet requesting 7 levels does not
fail: the call still returns the full `7 + 1` coefficient arrays (only
the boundary-effects warning fires). -/
theorem C8_counterexample :
    dwt_max_level ([(1:ℚ), 2, 3]).length 2 < 7 ∧
      (wavedecChecked haarStep 2 [(1:ℚ), 2, 3] 7).warnTooHigh = true ∧
      ((wavedecChecked haarStep 2 [(1:ℚ), 2, 3] 7).coeffs).length = 7 + 1 := by
  refine ⟨?_, ?_, ?_⟩
  · simp [dwt_max_level, Nat.log2]
  · simp [wavedecChecked, dwt_max_level, Nat.log2]
  · simp [wavedecChecked, wavedec_length]

/-- C8 (amended): when the requested depth exceeds the maximum
decomposable depth for the signal length, `pywt.wavedec` does not fail:
the boundary-effects `UserWarning` fires and the call still returns the
full `levels + 1` coefficient arrays. -/
theorem C8_high_level_warns_not_fails (dwtStep : List ℚ → List ℚ × List ℚ)
    (filterLen : ℕ) (data : List ℚ) (L : ℕ)
    (hL : dwt_max_level data.length filterLen < L) :
    (wavedecChecked dwtStep filterLen data L).warnTooHigh = true ∧
      ((wavedecChecked dwtStep filterLen data L).coeffs).length = L + 1 := by
  constructor
  · simp [wavedecChecked, hL]
  · simp [wavedecChecked, wavedec_length]

theorem C8_witness :
    (wavedecChecked haarStep 2 [(1:ℚ), 2] 5).warnTooHigh = true ∧
      ((wavedecChecked haarStep 2 [(1:ℚ), 2] 5).coeffs).length = 5 + 1 :=
  C8_high_level_warns_not_fails haarStep 2 [1, 2] 5
    (by simp [dwt_max_level, Nat.log2])

/-! ## FeatureExtractor: the statistics dict in `process_data`
(lines 56–60)

Each axis entry computes `"RMS": np.sqrt(np.mean(sig ** 2))`.  On an
empty array `np.mean` emits the "Mean of empty slice" `RuntimeWarning` —
not an exception — and returns NaN, and `np.sqrt` maps NaN to NaN, again
without raising; `none` models that NaN outcome. -/

/-- Model of `np.mean`: `none` (NaN, with a warning) on an empty array,
otherwise the arithmetic mean. -/
def npMean (x : List ℚ) : Option ℚ :=
  if x.length = 0 then none else some (x.sum / x.length)

/-- The RMS of lines 57–59: `np.sqrt(np.mean(signal ** 2))`; the NaN
(`none`) from an empty mean propagates through the square root. -/
noncomputable def rmsOf (x : List ℚ) : Option ℝ :=
  (npMean (x.map fun v => v * v)).map fun m => Real.sqrt (m : ℝ)

/-- C9 counterexample: on a zero-length signal the statistics stage does
not fail — `np.mean` warns and returns NaN, so the RMS entry is the NaN
value (`none`), produced without any exception. -/
theorem C9_counterexample : rmsOf [] = none := rfl

/-- C9 (amended): on an empty signal the RMS is the NaN result of
`np.mean` (no error is raised); on every non-empty signal the RMS equals
`sqrt(mean(signal²))` and is nonnegative. -/
theorem C9_rms_formula_nonneg (x : List ℚ) (hx : x ≠ []) :
    rmsOf x =
        some (Real.sqrt (((x.map fun v => v * v).sum / (x.length : ℚ) : ℚ) : ℝ)) ∧
      (0 : ℝ) ≤ (rmsOf x).getD 0 := by
  have hlen : ¬(x.length = 0) := fun h => hx (List.length_eq_zero.mp h)
  have hmean : npMean (x.map fun v => v * v) =
      some ((x.map fun v => v * v).sum / (x.length : ℚ)) := by
    unfold npMean
    rw [if_neg (by simpa using hlen), List.length_map]
  constructor
  · unfold rmsOf
    rw [hmean]
    rfl
  · unfold rmsOf
    rw [hmean]
    exact Real.sqrt_nonneg _

theorem C9_witness :
    rmsOf [(1:ℚ)] =
        some (Real.sqrt (((([(1:ℚ)]).map fun v => v * v).sum /
          ((([(1:ℚ)]).length : ℕ) : ℚ) : ℚ) : ℝ)) ∧
      (0 : ℝ) ≤ (rmsOf [(1:ℚ)]).getD 0 :=
  C9_rms_formula_nonneg [1] (by simp)

/-! ## PipelineOrchestrator: the RUNNING loop (lines 125–150)

```
try:
    for real_time_data in fetch_data_ws(ws_url_input):
        results = process_data(...)
        ...
        time.sleep(0.1)
except Exception as e:
    st.error(f"Error in real-time analysis: {e}")
```
The `try/except` encloses the entire `for` loop, not the loop body: an
exception raised while processing one cycle propagates out of the loop,
is reported once by the handler, and no further cycle runs. -/

/-- The RUNNING loop over the frames the generator delivers: each frame
is processed by `runCycle`, which either returns that cycle result or
raises (`Except.error`).  An error escapes the `for` loop to the single
handler, which reports it via `st.error`; processing stops there.  The
result pairs the completed cycle outputs with the reported error, if
any. -/
def analysisLoop {α β : Type} (runCycle : α → Except String β) :
    List α → List β × Option String
  | [] => ([], none)
  | a :: rest =>
    match runCycle a with
    | Except.error e => ([], some e)
    | Except.ok b =>
      let r := analysisLoop runCycle rest
      (b :: r.1, r.2)

/-- One analysis cycle restricted to the component C3 is about: the
band-filter stage, `combined_filter` at the pipeline constants
(`fs = 1000`, default order 5), on one received frame. -/
def cycleProcess (design : ℕ → ℚ → BType → Coeffs) (lowcut highcut : ℚ)
    (frame : List ℚ) : Except String (List ℚ) :=
  combined_filter design frame lowcut highcut 1000

/-- C3 counterexample: two frames arrive; processing the first raises a
component-level error (signal too short for zero-phase filtering) while
the second frame is perfectly processable — yet the loop produces no
cycle results at all: the second frame is never processed, so the loop
did terminate because a single cycle failed. -/
theorem C3_counterexample :
    isError (cycleProcess idDesign 1 2 [(1:ℚ), 2, 3, 4]) = false ∧
      (analysisLoop (cycleProcess idDesign 1 2)
        [[(1:ℚ)], [(1:ℚ), 2, 3, 4]]).1 = [] := by
  constructor
  · norm_num [cycleProcess, combined_filter, butter, filtfilt, lfilter,
      dotQ, idDesign, isError]
  · norm_num [analysisLoop, cycleProcess, combined_filter, butter,
      filtfilt, lfilter, dotQ, idDesign]

/-- C3 (amended): a component-level error in one cycle is reported to
the consumer (the handler shows it via `st.error`), but it terminates
the RUNNING loop: exactly the cycles before the failing one produce
results, and the failing cycle and everything after it are abandoned. -/
theorem C3_cycle_error_terminates_loop {α β : Type}
    (runCycle : α → Except String β) (pre post : List α) (a : α) (e : String)
    (hpre : ∀ x ∈ pre, isError (runCycle x) = false)
    (ha : runCycle a = Except.error e) :
    (analysisLoop runCycle (pre ++ a :: post)).2 = some e ∧
      ((analysisLoop runCycle (pre ++ a :: post)).1).length = pre.length := by
  induction pre with
  | nil => simp [analysisLoop, ha]
  | cons p ps ih =>
    have hp := hpre p (by simp)
    cases hrp : runCycle p with
    | error e2 => rw [hrp] at hp; simp [isError] at hp
    | ok b =>
      have ih2 := ih (fun x hx => hpre x (by simp [hx]))
      simp [analysisLoop, hrp, ih2.1, ih2.2]

theorem C3_witness :
    (analysisLoop (cycleProcess idDesign 1 2)
        ([[(1:ℚ), 2, 3, 4]] ++ [(1:ℚ)] :: [[(5:ℚ), 6, 7, 8]])).2 =
        some "The length of the input vector x must be greater than padlen" ∧
      ((analysisLoop (cycleProcess idDesign 1 2)
        ([[(1:ℚ), 2, 3, 4]] ++ [(1:ℚ)] :: [[(5:ℚ), 6, 7, 8]])).1).length =
        ([[(1:ℚ), 2, 3, 4]]).length :=
  C3_cycle_error_terminates_loop (cycleProcess idDesign 1 2)
    [[(1:ℚ), 2, 3, 4]] [[(5:ℚ), 6, 7, 8]] [(1:ℚ)]
    "The length of the input vector x must be greater than padlen"
    (by
      intro x hx
      simp only [List.mem_singleton] at hx
      subst hx
      norm_num [cycleProcess, combined_filter, butter, filtfilt, lfilter,
        dotQ, idDesign, isError])
    (by
      norm_num [cycleProcess, combined_filter, butter, filtfilt, lfilter,
        dotQ, idDesign])

end Vibration
